import Mathlib

/-!
Verification of the RUL data-preparation logic of the predictive-maintenance
notebook (`Predictive-Maintenance-Data-Preparation.ipynb`).

The notebook's core is the function `prepare_data(data, y=None)`:

```python
def prepare_data(data, y=None):
    df = data.copy()  # As to not modify the underlying dataframe
    g = df.groupby('unit_number').agg({'max_cycles': vaex.agg.count('time_in_cycles')})
    df = df.join(other=g, on='unit_number', how='left')
    if y is None:
        df['RUL'] = df.max_cycles - df.time_in_cycles
        df = df.drop(columns=['max_cycles'])
    else:
        df = df.join(y, on='unit_number', how='left')
        df['RUL'] = df.max_cycles + df.remaining_cycles - df.time_in_cycles
        df = df.drop(columns=['remaining_cycles', 'max_cycles'])
    return df
```

together with the construction of the label table:

```python
y_test = vaex.read_csv('./data/RUL_FD001.txt', names=['remaining_cycles'])
y_test['unit_number'] = vaex.vrange(1, 101)
y_test['unit_number'] = y_test.unit_number.astype('int')
```

We embed the dataframe at two levels of abstraction, both taken directly
from the source:

* a row level: a run table is a `List RunRow`; the groupby-count is a
  filtered length, the left join onto the (unique-keyed) groupby result is a
  per-row lookup, the left join onto the label table is an association-list
  lookup whose miss produces a missing (`none`) value that the RUL
  arithmetic propagates, exactly as vaex's left join and virtual-column
  arithmetic propagate missing values as null/NaN;
* a column (schema) level: each join / column-assignment / drop of the
  source is mirrored as an operation on the list of column names, so that
  the schema guarantees can be stated.
-/

/-- One row of a run table (`train_FD001.txt` / `test_FD001.txt`).  Only
`unit_number` and `time_in_cycles` take part in the RUL derivation; the
three operational settings and the 21 sensor channels are carried opaquely
as `rest`. -/
structure RunRow where
  unit_number : Nat
  time_in_cycles : Int
  rest : List Int
deriving DecidableEq, Repr

/-- A label table: the `y` argument of `prepare_data`, mapping
`unit_number` to `remaining_cycles` (one row per unit). -/
abbrev Labels := List (Nat × Int)

/-- The groupby aggregate `g = df.groupby('unit_number').agg({'max_cycles': vaex.agg.count('time_in_cycles')})`
evaluated at one key `u`: the count of rows of `runs` whose `unit_number`
is `u`. -/
def maxCycles (runs : List RunRow) (u : Nat) : Nat :=
  (runs.filter (fun r => r.unit_number == u)).length

/-- The left join `df.join(y, on='unit_number', how='left')` evaluated at one key: the
`remaining_cycles` of the first label row whose `unit_number` matches, or
`none` (null) when the unit has no label row. -/
def lookupLabel (labels : Labels) (u : Nat) : Option Int :=
  Option.map Prod.snd (labels.find? (fun p => p.1 == u))

/-- One row of the table returned by `prepare_data`: the original columns
plus `RUL`.  The scaffold columns `max_cycles` / `remaining_cycles` are
dropped by the source before returning, so they are not fields here.
`RUL` is `Option Int` because vaex's left join yields a null
`remaining_cycles` for an unlabelled unit and the arithmetic propagates it
into a null `RUL`. -/
structure OutRow where
  unit_number : Nat
  time_in_cycles : Int
  rest : List Int
  RUL : Option Int
deriving DecidableEq, Repr

/-- The body of `prepare_data` for a single row `r` of `runs`: the joined
`max_cycles` value, then the `RUL` arithmetic of the branch selected by
`y`, with missing `remaining_cycles` propagating into a missing `RUL`. -/
def enrichRow (runs : List RunRow) (y : Option Labels) (r : RunRow) : OutRow :=
  let mc : Int := (maxCycles runs r.unit_number : Int)
  match y with
  | none =>
      ⟨r.unit_number, r.time_in_cycles, r.rest, some (mc - r.time_in_cycles)⟩
  | some labels =>
      match lookupLabel labels r.unit_number with
      | some rc =>
          ⟨r.unit_number, r.time_in_cycles, r.rest, some (mc + rc - r.time_in_cycles)⟩
      | none =>
          ⟨r.unit_number, r.time_in_cycles, r.rest, none⟩

/-- The function `prepare_data(data, y)` at row level.  Both joins are left joins keyed on
`unit_number` against unique-keyed right tables (the groupby result has one
row per unit; `y_test` has one row per unit), so each input row yields
exactly one output row, in input order. -/
def prepare_data (runs : List RunRow) (y : Option Labels) : List OutRow :=
  runs.map (enrichRow runs y)

/-- The index of the output row corresponding to input row `i` (the joins
preserve row count and order). -/
def pdIndex (runs : List RunRow) (y : Option Labels) (i : Fin runs.length) :
    Fin (prepare_data runs y).length :=
  Fin.cast (by simp [prepare_data]) i

/-- The `time_in_cycles` values of the rows of unit `u`, in row order. -/
def unitCycles (runs : List RunRow) (u : Nat) : List Int :=
  (runs.filter (fun r => r.unit_number == u)).map (fun r => r.time_in_cycles)

/-- Well-formedness of unit `u`'s log, as the spec assumes it:
`time_in_cycles` runs contiguously 1, 2, …, n where n is the row count of
the unit. -/
def contiguousFromOne (runs : List RunRow) (u : Nat) : Prop :=
  unitCycles runs u =
    (List.range (maxCycles runs u)).map (fun k : Nat => (k : Int) + 1)

instance (runs : List RunRow) (u : Nat) : Decidable (contiguousFromOne runs u) := by
  unfold contiguousFromOne
  infer_instance

/- Column (schema) level embedding. -/

/-- The 26 input column names (cell 3 of the notebook). -/
def column_names : List String :=
  ["unit_number", "time_in_cycles", "setting_1", "setting_2", "setting_3",
   "T2", "T24", "T30", "T50", "P2", "P15", "P30", "Nf", "Nc", "epr", "Ps30", "phi",
   "NRf", "NRc", "BPR", "farB", "htBleed", "Nf_dmd", "PCNfR_dmd", "W31", "W32"]

/-- Schema effect of a join that contributes one non-key column, or of a
virtual-column assignment `df[c] = ...` for a fresh name `c`: the column is
appended. -/
def addColumn (cols : List String) (c : String) : List String :=
  cols ++ [c]

/-- Schema effect of `df.drop(columns=toDrop)`. -/
def dropColumns (cols toDrop : List String) : List String :=
  cols.filter (fun c => !(toDrop.contains c))

/-- Schema-level `prepare_data`: the sequence of joins, the `RUL`
assignment and the drops of the source, on the column-name list.  `test` is
`true` when the `y` argument is present. -/
def prepare_data_columns (cols : List String) (test : Bool) : List String :=
  let cols1 := addColumn cols "max_cycles"
  if test then
    let cols2 := addColumn cols1 "remaining_cycles"
    let cols3 := addColumn cols2 "RUL"
    dropColumns cols3 ["remaining_cycles", "max_cycles"]
  else
    let cols2 := addColumn cols1 "RUL"
    dropColumns cols2 ["max_cycles"]

/- Construction of the label table `y_test`. -/

/-- The sequence `vaex.vrange(a, b)` (integer-cast): the values a, a+1, …, b-1. -/
def vrange (a b : Nat) : List Nat :=
  (List.range (b - a)).map (fun k => k + a)

/-- The `y_test` construction: read `n` `remaining_cycles` values, then
assign `unit_number = vaex.vrange(1, 101)`.  vaex's `add_column` raises a
`ValueError` when the assigned array's length differs from the dataframe's
length, so the construction succeeds (returning the keyed label table) only
when the file has exactly 100 rows. -/
def buildYTest (raw : List Int) : Option Labels :=
  if raw.length = (vrange 1 101).length then
    some ((vrange 1 101).zip raw)
  else
    none

/-- The stateful view of one call `prepare_data(data, y)`: the returned
table together with the final values of the caller's two tables.  The body
reads `data` once, through `df = data.copy()`; every later operation either
rebinds the local `df` (`join`, `drop`) or assigns a column on the copy
(`df['RUL'] = ...`), so neither `data` nor `y` is written. -/
def prepare_data_call (data : List RunRow) (y : Option Labels) :
    List OutRow × List RunRow × Option Labels :=
  let df := data
  let df1 := df.map (enrichRow df y)
  (df1, data, y)

/-! ### Helper lemmas -/

/-- Output row `i` of `prepare_data` is the enrichment of input row `i`. -/
theorem prepare_data_get (runs : List RunRow) (y : Option Labels)
    (i : Fin runs.length) :
    (prepare_data runs y).get (pdIndex runs y i) = enrichRow runs y (runs.get i) := by
  simp [prepare_data, pdIndex, List.get_eq_getElem]

/-- Under contiguity, every row of unit `u` has `1 ≤ time_in_cycles ≤ maxCycles`. -/
theorem cycle_bounds (runs : List RunRow) (u : Nat)
    (hc : contiguousFromOne runs u) (r : RunRow) (hr : r ∈ runs)
    (hu : r.unit_number = u) :
    1 ≤ r.time_in_cycles ∧ r.time_in_cycles ≤ (maxCycles runs u : Int) := by
  have hmem : r.time_in_cycles ∈ unitCycles runs u := by
    refine List.mem_map.mpr ⟨r, ?_, rfl⟩
    exact List.mem_filter.mpr ⟨hr, by simp [hu]⟩
  rw [contiguousFromOne] at hc
  rw [hc] at hmem
  rcases List.mem_map.mp hmem with ⟨k, hk, hkt⟩
  rw [List.mem_range] at hk
  have hklt : (k : Int) < (maxCycles runs u : Int) := by exact_mod_cast hk
  omega

/-- Under contiguity, a row of unit `u` whose `time_in_cycles` is maximal
within the unit has `time_in_cycles = maxCycles`. -/
theorem max_row_cycles (runs : List RunRow) (u : Nat)
    (hc : contiguousFromOne runs u) (r : RunRow) (hr : r ∈ runs)
    (hu : r.unit_number = u)
    (hmax : ∀ s ∈ runs, s.unit_number = u → s.time_in_cycles ≤ r.time_in_cycles) :
    r.time_in_cycles = (maxCycles runs u : Int) := by
  have hub := (cycle_bounds runs u hc r hr hu).2
  have hn : 1 ≤ maxCycles runs u := by
    have : r ∈ runs.filter (fun s => s.unit_number == u) :=
      List.mem_filter.mpr ⟨hr, by simp [hu]⟩
    have := List.length_pos.mpr (List.ne_nil_of_mem this)
    unfold maxCycles
    omega
  -- the value `maxCycles` itself occurs among the unit's cycles
  have hmc_mem : (maxCycles runs u : Int) ∈ unitCycles runs u := by
    rw [contiguousFromOne] at hc
    rw [hc]
    have hk : maxCycles runs u - 1 ∈ List.range (maxCycles runs u) :=
      List.mem_range.mpr (by omega)
    refine List.mem_map.mpr ⟨maxCycles runs u - 1, hk, ?_⟩
    have : ((maxCycles runs u - 1 : Nat) : Int) = (maxCycles runs u : Int) - 1 := by
      omega
    rw [this]
    ring
  rcases List.mem_map.mp hmc_mem with ⟨s, hs, hst⟩
  rcases List.mem_filter.mp hs with ⟨hsmem, hsu⟩
  have hsu' : s.unit_number = u := by simpa using hsu
  have := hmax s hsmem hsu'
  omega

/-- Under contiguity, the row of unit `u` with maximal `time_in_cycles` is
enriched (train variant) with `RUL = 0`. -/
theorem last_row_rul_zero (runs : List RunRow) (r : RunRow) (hr : r ∈ runs)
    (hc : contiguousFromOne runs r.unit_number)
    (hmax : ∀ s ∈ runs, s.unit_number = r.unit_number →
      s.time_in_cycles ≤ r.time_in_cycles) :
    (enrichRow runs none r).RUL = some 0 := by
  have := max_row_cycles runs r.unit_number hc r hr rfl hmax
  simp [enrichRow]
  omega

/-! ### Claims -/

/-- C1: in the train variant (no `y`), the RUL of every output row equals
the number of rows of `runs` sharing the row's `unit_number` (the
groupby-count `max_cycles`) minus the row's `time_in_cycles`. -/
theorem claim_c1 (runs : List RunRow) (i : Fin runs.length) :
    ((prepare_data runs none).get (pdIndex runs none i)).RUL
      = some (((runs.filter
            (fun s => s.unit_number == (runs.get i).unit_number)).length : Int)
          - (runs.get i).time_in_cycles) := by
  rw [prepare_data_get]
  simp [enrichRow, maxCycles]

/-- C1 witness: two rows of unit 1; the first row (cycle 1) gets RUL 2 - 1 = 1. -/
theorem claim_c1_witness :
    ((prepare_data [⟨1, 1, []⟩, ⟨1, 2, []⟩] none).get
        (pdIndex [⟨1, 1, []⟩, ⟨1, 2, []⟩] none ⟨0, by decide⟩)).RUL = some 1 := by
  have h := claim_c1 [⟨1, 1, []⟩, ⟨1, 2, []⟩] ⟨0, by decide⟩
  simpa using h

/-- C2: in the test variant, an output row whose unit has a label with
value `rc` gets RUL = (count of rows of the unit) + rc - time_in_cycles. -/
theorem claim_c2 (runs : List RunRow) (labels : Labels) (i : Fin runs.length)
    (rc : Int) (hl : lookupLabel labels (runs.get i).unit_number = some rc) :
    ((prepare_data runs (some labels)).get (pdIndex runs (some labels) i)).RUL
      = some ((((runs.filter
            (fun s => s.unit_number == (runs.get i).unit_number)).length : Int)
          + rc) - (runs.get i).time_in_cycles) := by
  rw [prepare_data_get]
  simp only [List.get_eq_getElem] at hl
  simp [enrichRow, hl, maxCycles]

/-- C2 witness: one row of unit 1 at cycle 1, label (1, 5): RUL = 1 + 5 - 1 = 5. -/
theorem claim_c2_witness :
    ((prepare_data [⟨1, 1, []⟩] (some [(1, 5)])).get
        (pdIndex [⟨1, 1, []⟩] (some [(1, 5)]) ⟨0, by decide⟩)).RUL = some 5 := by
  have h := claim_c2 [⟨1, 1, []⟩] [(1, 5)] ⟨0, by decide⟩ 5 (by decide)
  simpa using h

/-- C3 counterexample: on a test-variant input whose only run row's unit
(7) has no label row, `prepare_data` returns normally, producing that row
with a silently null RUL — no MissingLabel error is signalled, contrary to
the claim. -/
theorem claim_c3_counterexample :
    prepare_data [⟨7, 1, []⟩] (some []) = [⟨7, 1, [], none⟩] := by
  rfl

/-- C3 (amended): in the test variant, a run row whose `unit_number` has no
label row is returned with `RUL = none` (the left join leaves
`remaining_cycles` missing and the arithmetic propagates the missing value);
no error is signalled. -/
theorem claim_c3_amended (runs : List RunRow) (labels : Labels)
    (i : Fin runs.length)
    (hl : lookupLabel labels (runs.get i).unit_number = none) :
    ((prepare_data runs (some labels)).get (pdIndex runs (some labels) i)).RUL
      = none := by
  rw [prepare_data_get]
  simp only [List.get_eq_getElem] at hl
  simp [enrichRow, hl]

/-- C3 witness: the unlabelled unit 7 gets a null RUL. -/
theorem claim_c3_witness :
    ((prepare_data [⟨7, 1, []⟩] (some [])).get
        (pdIndex [⟨7, 1, []⟩] (some []) ⟨0, by decide⟩)).RUL = none :=
  claim_c3_amended [⟨7, 1, []⟩] [] ⟨0, by decide⟩ (by decide)

/-- C4: both variants return exactly one output row per input row. -/
theorem claim_c4 (runs : List RunRow) (y : Option Labels) :
    (prepare_data runs y).length = runs.length := by
  simp [prepare_data]

/-- C9: `prepare_data` is pure: after a call, the caller's `data` and `y`
tables are unchanged, and the only effect is the returned enriched table. -/
theorem claim_c9 (data : List RunRow) (y : Option Labels) :
    (prepare_data_call data y).2.1 = data ∧ (prepare_data_call data y).2.2 = y
      ∧ (prepare_data_call data y).1 = prepare_data data y :=
  ⟨rfl, rfl, rfl⟩

/-- C10: with labels assigning `remaining_cycles = 0` to every unit of
`runs`, the test variant produces the same RUL column as the train
variant. -/
theorem claim_c10 (runs : List RunRow) (labels : Labels)
    (hz : ∀ r ∈ runs, lookupLabel labels r.unit_number = some 0) :
    (prepare_data runs (some labels)).map OutRow.RUL
      = (prepare_data runs none).map OutRow.RUL := by
  unfold prepare_data
  rw [List.map_map, List.map_map]
  apply List.map_congr_left
  intro r hr
  simp [Function.comp, enrichRow, hz r hr]

/-- C10 witness: one row of unit 3 at cycle 1, label (3, 0): both variants
give RUL column [some 0]. -/
theorem claim_c10_witness :
    (prepare_data [⟨3, 1, []⟩] (some [(3, 0)])).map OutRow.RUL
      = (prepare_data [⟨3, 1, []⟩] none).map OutRow.RUL :=
  claim_c10 [⟨3, 1, []⟩] [(3, 0)] (by decide)

/-- Dropping columns leaves a column list untouched when none of its names is
among the dropped ones. -/
theorem dropColumns_disjoint (cols toDrop : List String)
    (h : ∀ c ∈ cols, c ∉ toDrop) : dropColumns cols toDrop = cols := by
  unfold dropColumns
  rw [List.filter_eq_self]
  intro a ha
  simpa using h a ha

/-- Dropping columns distributes over concatenated column lists. -/
theorem dropColumns_append (a b toDrop : List String) :
    dropColumns (a ++ b) toDrop = dropColumns a toDrop ++ dropColumns b toDrop := by
  simp [dropColumns, List.filter_append]

/-- C5: for any input schema free of the scaffold names, both variants
return the input columns plus exactly the one new column `RUL`, and neither
`max_cycles` nor `remaining_cycles` survives into the output. -/
theorem claim_c5 (cols : List String) (test : Bool)
    (h1 : "max_cycles" ∉ cols) (h2 : "remaining_cycles" ∉ cols)
    (h3 : "RUL" ∉ cols) :
    prepare_data_columns cols test = cols ++ ["RUL"]
    ∧ (prepare_data_columns cols test).count "RUL" = 1
    ∧ "max_cycles" ∉ prepare_data_columns cols test
    ∧ "remaining_cycles" ∉ prepare_data_columns cols test := by
  have hmain : prepare_data_columns cols test = cols ++ ["RUL"] := by
    cases test with
    | false =>
        have hd : ∀ c ∈ cols, c ∉ (["max_cycles"] : List String) := by
          intro c hcm hmem
          have : c = "max_cycles" := by simpa using hmem
          exact h1 (this ▸ hcm)
        show dropColumns ((cols ++ ["max_cycles"]) ++ ["RUL"]) ["max_cycles"]
            = cols ++ ["RUL"]
        rw [dropColumns_append, dropColumns_append, dropColumns_disjoint cols _ hd,
          show dropColumns ["max_cycles"] ["max_cycles"] = [] from by decide,
          show dropColumns ["RUL"] ["max_cycles"] = ["RUL"] from by decide]
        simp
    | true =>
        have hd : ∀ c ∈ cols, c ∉ (["remaining_cycles", "max_cycles"] : List String) := by
          intro c hcm hmem
          rcases List.mem_cons.mp hmem with h | h
          · exact h2 (h ▸ hcm)
          · have : c = "max_cycles" := by simpa using h
            exact h1 (this ▸ hcm)
        show dropColumns (((cols ++ ["max_cycles"]) ++ ["remaining_cycles"]) ++ ["RUL"])
            ["remaining_cycles", "max_cycles"] = cols ++ ["RUL"]
        rw [dropColumns_append, dropColumns_append, dropColumns_append,
          dropColumns_disjoint cols _ hd,
          show dropColumns ["max_cycles"] ["remaining_cycles", "max_cycles"] = []
            from by decide,
          show dropColumns ["remaining_cycles"] ["remaining_cycles", "max_cycles"] = []
            from by decide,
          show dropColumns ["RUL"] ["remaining_cycles", "max_cycles"] = ["RUL"]
            from by decide]
        simp
  refine ⟨hmain, ?_, ?_, ?_⟩
  · rw [hmain]
    simp [List.count_append, List.count_eq_zero.mpr h3]
  · rw [hmain]
    simp [h1]
  · rw [hmain]
    simp [h2]

/-- C5 witness: the notebook's 26-column schema, both variants. -/
theorem claim_c5_witness :
    prepare_data_columns column_names true = column_names ++ ["RUL"]
    ∧ prepare_data_columns column_names false = column_names ++ ["RUL"] :=
  ⟨(claim_c5 column_names true (by decide) (by decide) (by decide)).1,
   (claim_c5 column_names false (by decide) (by decide) (by decide)).1⟩

/-- C6: in the train variant, under contiguous-from-1 cycles, the row of a
unit with the maximal `time_in_cycles` gets RUL = 0. -/
theorem claim_c6 (runs : List RunRow) (i : Fin runs.length)
    (hc : contiguousFromOne runs (runs.get i).unit_number)
    (hmax : ∀ s ∈ runs, s.unit_number = (runs.get i).unit_number →
      s.time_in_cycles ≤ (runs.get i).time_in_cycles) :
    ((prepare_data runs none).get (pdIndex runs none i)).RUL = some 0 := by
  rw [prepare_data_get]
  exact last_row_rul_zero runs (runs.get i) (runs.get_mem i.1 i.2) hc hmax

/-- C6 witness: unit 1 with cycles 1, 2, 3; its last row gets RUL 0. -/
theorem claim_c6_witness :
    ((prepare_data [⟨1, 1, []⟩, ⟨1, 2, []⟩, ⟨1, 3, []⟩] none).get
        (pdIndex [⟨1, 1, []⟩, ⟨1, 2, []⟩, ⟨1, 3, []⟩] none ⟨2, by decide⟩)).RUL
      = some 0 :=
  claim_c6 [⟨1, 1, []⟩, ⟨1, 2, []⟩, ⟨1, 3, []⟩] ⟨2, by decide⟩ (by decide) (by decide)

/-- C7: on well-formed input (contiguous cycles per unit and, in the test
variant, a non-negative label for every unit of `runs`), every RUL value is
a non-negative integer, and in the train variant each unit's last record
gets exactly 0. -/
theorem claim_c7 (runs : List RunRow) (yOpt : Option Labels)
    (hc : ∀ r ∈ runs, contiguousFromOne runs r.unit_number)
    (hy : ∀ labels, yOpt = some labels →
      ∀ r ∈ runs, ∃ rc : Int, lookupLabel labels r.unit_number = some rc ∧ 0 ≤ rc) :
    (∀ i : Fin runs.length, ∃ v : Int,
        ((prepare_data runs yOpt).get (pdIndex runs yOpt i)).RUL = some v ∧ 0 ≤ v)
    ∧ (yOpt = none → ∀ i : Fin runs.length,
        (∀ s ∈ runs, s.unit_number = (runs.get i).unit_number →
          s.time_in_cycles ≤ (runs.get i).time_in_cycles) →
        ((prepare_data runs yOpt).get (pdIndex runs yOpt i)).RUL = some 0) := by
  constructor
  · intro i
    rw [prepare_data_get]
    have hrm : runs.get i ∈ runs := runs.get_mem i.1 i.2
    have hb := cycle_bounds runs (runs.get i).unit_number (hc _ hrm) (runs.get i) hrm rfl
    cases yOpt with
    | none =>
        refine ⟨(maxCycles runs (runs.get i).unit_number : Int)
          - (runs.get i).time_in_cycles, ?_, ?_⟩
        · simp [enrichRow]
        · omega
    | some labels =>
        rcases hy labels rfl (runs.get i) hrm with ⟨rc, hlk, hrc⟩
        simp only [List.get_eq_getElem] at hlk
        refine ⟨(maxCycles runs (runs.get i).unit_number : Int) + rc
          - (runs.get i).time_in_cycles, ?_, ?_⟩
        · simp [enrichRow, hlk]
        · omega
  · rintro rfl i hmax
    rw [prepare_data_get]
    exact last_row_rul_zero runs (runs.get i) (runs.get_mem i.1 i.2) (hc _ (runs.get_mem i.1 i.2)) hmax

/-- C7 witness: one unit with one cycle and label (1, 2): the RUL is
defined and non-negative. -/
theorem claim_c7_witness :
    ∃ v : Int, ((prepare_data [⟨1, 1, []⟩] (some [(1, 2)])).get
        (pdIndex [⟨1, 1, []⟩] (some [(1, 2)]) ⟨0, by decide⟩)).RUL = some v ∧ 0 ≤ v :=
  (claim_c7 [⟨1, 1, []⟩] (some [(1, 2)]) (by decide)
    (by
      intro labels hlab r hrmem
      cases hlab
      have hr : r = ⟨1, 1, []⟩ := by simpa using hrmem
      subst hr
      exact ⟨2, by decide, by decide⟩)).1 ⟨0, by decide⟩

/-- C8 counterexample: the unit numbers of the label table are synthesized
by the hard-coded `vaex.vrange(1, 101)`, so for a label file with any
other row count (here: one row) the assignment fails on the length
mismatch instead of numbering the rows 1..n as the claim states. -/
theorem claim_c8_counterexample : buildYTest [7] = none := by decide

/-- C8 (amended): for a label file of exactly 100 rows (the only length the
hard-coded `vaex.vrange(1, 101)` accepts), label row k (1-based) is
assigned `unit_number = k`, synthesized positionally rather than read from
the file, and keeps its `remaining_cycles` value. -/
theorem claim_c8_amended (raw : List Int) (h : raw.length = 100)
    (k : Nat) (hk : k < 100) :
    ∃ ys : Labels, buildYTest raw = some ys ∧
      ∃ hys : k < ys.length, ∃ hr : k < raw.length,
        ys.get ⟨k, hys⟩ = (k + 1, raw.get ⟨k, hr⟩) := by
  have hv : (vrange 1 101).length = 100 := by simp [vrange]
  have hcond : raw.length = (vrange 1 101).length := by omega
  refine ⟨(vrange 1 101).zip raw, ?_, ?_, ?_, ?_⟩
  · simp [buildYTest, hcond]
  · simp [vrange, hcond.symm ▸ hv]
    omega
  · omega
  · have hzk : k < ((vrange 1 101).zip raw).length := by
      simp [vrange]
      omega
    have := @List.getElem_zip _ _ (vrange 1 101) raw k hzk
    simp only [List.get_eq_getElem]
    rw [this]
    congr 1
    simp [vrange]

/-- C8 witness: a 100-row label file of zeros; row 3 (index 2) is assigned
unit_number 3. -/
theorem claim_c8_witness :
    ∃ ys : Labels, buildYTest (List.replicate 100 0) = some ys ∧
      ∃ hys : 2 < ys.length, ∃ hr : 2 < (List.replicate 100 (0 : Int)).length,
        ys.get ⟨2, hys⟩ = (2 + 1, (List.replicate 100 (0 : Int)).get ⟨2, hr⟩) :=
  claim_c8_amended (List.replicate 100 0) (by simp) 2 (by decide)
